import Mathlib

/-!
Verification of the per-speaker audio segmentation core of a voice-recording
bot.  The embedding models, from the source:

* `createWavBuffer` (frontend/src/utils/api.js): the linear-PCM container
  encoder — a 44-byte RIFF/WAVE header followed by the raw payload.
  Buffers are modelled as `List Nat` of byte values; Node's
  `writeUInt16LE`/`writeUInt32LE` are modelled with `% 2^16` / `% 2^32`
  (Node throws on out-of-range values instead of wrapping, so theorems
  carry the corresponding in-range hypotheses).
* `AudioRecorder` (frontend/src/voice/audioRecorder.js): per-user
  buffering, silence timers (`setTimeout` handles as numbered timers with
  an explicit set of live timers), flush-and-send, destroy.
* `joinVoiceChannel` (frontend/src/voice/voiceManager.js): the per-guild
  connection/recorder registry and its replace-on-rejoin teardown.

The event-driven runtime (decoder `data` events, timer expiry, stream
`close`) is modelled as a deterministic small-step executor over timed
event lists: before an event at time `t`, every live timer whose deadline
has passed fires.
-/

set_option autoImplicit false

namespace DiscordBot

/-- `SILENCE_DURATION_MS` — quiet period; `parseInt(env) || 1000`, default 1000. -/
def SILENCE_DURATION_MS : Nat := 1000

/-- Discord sends 48kHz audio. -/
def SAMPLE_RATE : Nat := 48000

/-- Stereo. -/
def CHANNELS : Nat := 2

/-- Node `Buffer.writeUInt16LE`, as the two little-endian bytes. -/
def writeUInt16LE (v : Nat) : List Nat :=
  [v % 256, v / 256 % 256]

/-- Node `Buffer.writeUInt32LE`, as the four little-endian bytes. -/
def writeUInt32LE (v : Nat) : List Nat :=
  [v % 256, v / 256 % 256, v / 65536 % 256, v / 16777216 % 256]

/-- ASCII bytes written by `buffer.write("RIFF", 0)`. -/
def asciiRIFF : List Nat := [82, 73, 70, 70]

/-- ASCII bytes of "WAVE". -/
def asciiWAVE : List Nat := [87, 65, 86, 69]

/-- ASCII bytes of "fmt " (with trailing space). -/
def asciiFmtSpace : List Nat := [102, 109, 116, 32]

/-- ASCII bytes of "data". -/
def asciiData : List Nat := [100, 97, 116, 97]

/-- `createWavBuffer(pcmBuffer, sampleRate, channels)` from api.js:
44-byte RIFF header followed by the raw PCM payload. -/
def createWavBuffer (pcmBuffer : List Nat) (sampleRate channels : Nat) : List Nat :=
  let bitsPerSample := 16
  let byteRate := sampleRate * channels * (bitsPerSample / 8)
  let blockAlign := channels * (bitsPerSample / 8)
  let dataSize := pcmBuffer.length
  asciiRIFF ++ writeUInt32LE (36 + dataSize) ++
    asciiWAVE ++
    asciiFmtSpace ++ writeUInt32LE 16 ++ writeUInt16LE 1 ++ writeUInt16LE channels ++
    writeUInt32LE sampleRate ++ writeUInt32LE byteRate ++ writeUInt16LE blockAlign ++
    writeUInt16LE bitsPerSample ++
    asciiData ++ writeUInt32LE dataSize ++
    pcmBuffer

/-- Little-endian 16-bit read of the first two bytes of a byte list. -/
def readLE16 (b : List Nat) : Nat :=
  b.getD 0 0 + 256 * b.getD 1 0

/-- Little-endian 32-bit read of the first four bytes of a byte list. -/
def readLE32 (b : List Nat) : Nat :=
  b.getD 0 0 + 256 * (b.getD 1 0 + 256 * (b.getD 2 0 + 256 * b.getD 3 0))

/-- Node `Buffer.readUInt16LE(off)`. -/
def bufReadUInt16LE (b : List Nat) (off : Nat) : Nat :=
  readLE16 (b.drop off)

/-- Node `Buffer.readUInt32LE(off)`. -/
def bufReadUInt32LE (b : List Nat) (off : Nat) : Nat :=
  readLE32 (b.drop off)

/-- `minBytes = (SAMPLE_RATE * CHANNELS * 2 * 100) / 1000` — the 100 ms floor. -/
def minBytes : Nat := (SAMPLE_RATE * CHANNELS * 2 * 100) / 1000

/-- A scheduled `setTimeout` handle: numeric id, the user whose silence it
watches, and the wall-clock deadline at which it fires. -/
structure Timer where
  id : Nat
  userId : String
  deadline : Nat
deriving DecidableEq

/-- Per-user recording state (the `userState` object): buffered PCM chunks in
arrival order, the speaking flag, and the stored silence-timer handle
(`null` modelled as `none`). -/
structure UserState where
  userId : String
  audioChunks : List (List Nat)
  isSpeaking : Bool
  silenceTimer : Option Nat
deriving DecidableEq

/-- `AudioRecorder` state: the `users` map (insertion-ordered association
list), the `destroyed` flag, plus the runtime bookkeeping the JS engine
keeps implicitly: the set of live (scheduled, not yet fired or cleared)
timers, a fresh-id counter, the log of `receiver.subscribe` calls, and the
log of stream handles destroyed during cleanup. -/
structure RecorderState where
  guildId : String
  users : List (String × UserState)
  destroyed : Bool
  liveTimers : List Timer
  nextTimerId : Nat
  subscriptions : List String
  closedStreams : List String
deriving DecidableEq

/-- A fresh recorder, as built by `new AudioRecorder(connection, guildId)`. -/
def initialRecorder (g : String) : RecorderState :=
  ⟨g, [], false, [], 0, [], []⟩

/-- `Map.get`: first entry with the given key. -/
def alookup {α : Type} (k : String) : List (String × α) → Option α
  | [] => none
  | p :: l => if p.1 = k then some p.2 else alookup k l

/-- In-place mutation of the entry with the given key. -/
def aupdate {α : Type} (k : String) (f : α → α) : List (String × α) → List (String × α)
  | [] => []
  | p :: l => if p.1 = k then (p.1, f p.2) :: aupdate k f l else p :: aupdate k f l

/-- `Map.delete`: drop every entry with the given key. -/
def aremove {α : Type} (k : String) : List (String × α) → List (String × α)
  | [] => []
  | p :: l => if p.1 = k then aremove k l else p :: aremove k l

/-- `clearTimeout(h)`: the timer with handle `h` is no longer live.
Clearing an already-fired or already-cleared handle is a no-op. -/
def clearTimeout (h : Nat) (s : RecorderState) : RecorderState :=
  { s with liveTimers := s.liveTimers.filter (fun tm => tm.id != h) }

/-- `_resetSilenceTimer(userId)`: look the user up; if absent, return.
Otherwise clear the stored timer handle (if any) and schedule a fresh
timer for `now + SILENCE_DURATION_MS`, storing its handle. -/
def resetSilenceTimer (now : Nat) (u : String) (s : RecorderState) : RecorderState :=
  match alookup u s.users with
  | none => s
  | some st =>
    let s1 := match st.silenceTimer with
      | some h => clearTimeout h s
      | none => s
    let tid := s1.nextTimerId
    { s1 with
      liveTimers := s1.liveTimers ++ [⟨tid, u, now + SILENCE_DURATION_MS⟩],
      nextTimerId := tid + 1,
      users := aupdate u (fun st => { st with silenceTimer := some tid }) s1.users }

/-- The fresh `userState` object built in `handleUserSpeaking`
(`isSpeaking: true`, empty buffer, no timer yet). -/
def freshUserState (u : String) : UserState :=
  ⟨u, [], true, none⟩

/-- `handleUserSpeaking(userId, receiver)`: no-op when destroyed; if a
session already exists, refresh `isSpeaking` and reset the timer; otherwise
subscribe to the opus stream (logged in `subscriptions`), register the
fresh user state, and start the silence timer. -/
def handleUserSpeaking (now : Nat) (u : String) (s : RecorderState) : RecorderState :=
  if s.destroyed then s
  else
    match alookup u s.users with
    | some _ =>
      resetSilenceTimer now u
        { s with users := aupdate u (fun st => { st with isSpeaking := true }) s.users }
    | none =>
      resetSilenceTimer now u
        { s with
          subscriptions := s.subscriptions ++ [u],
          users := s.users ++ [(u, freshUserState u)] }

/-- The decoder `data` handler: no-op when destroyed; otherwise append the
PCM chunk to the user's buffer, mark speaking, and reset the silence
timer. -/
def decoderData (now : Nat) (u : String) (chunk : List Nat) (s : RecorderState) :
    RecorderState :=
  if s.destroyed then s
  else
    let push := fun (st : UserState) =>
      { st with audioChunks := st.audioChunks ++ [chunk], isSpeaking := true }
    resetSilenceTimer now u { s with users := aupdate u push s.users }

/-- One upload handed to `sendAudioToBackend`: the drained PCM together with
the WAV container it is wrapped in (`createWavBuffer(pcm, 48000, 2)`). -/
structure Upload where
  userId : String
  wav : List Nat
  pcm : List Nat
deriving DecidableEq

/-- Result of one `_flushAndSend` invocation: the successor state, the
drained buffer (`none` when the call returned early on a missing user or an
empty buffer), and the upload it dispatched (`none` additionally when the
drained buffer was under the 100 ms floor).  Upload failure is external and
does not touch recorder state. -/
structure FlushOut where
  state : RecorderState
  drained : Option (List Nat)
  upload : Option Upload
deriving DecidableEq

/-- `_flushAndSend(userId)`: return early on a missing user or an empty
buffer; otherwise drain the chunk list, concatenate it, skip the upload if
the result is shorter than `minBytes`, and otherwise send exactly one
upload. -/
def flushAndSend (u : String) (s : RecorderState) : FlushOut :=
  match alookup u s.users with
  | none => ⟨s, none, none⟩
  | some st =>
    if st.audioChunks = [] then ⟨s, none, none⟩
    else
      let pcm := st.audioChunks.flatten
      let s1 := { s with users := aupdate u (fun st => { st with audioChunks := [] }) s.users }
      if pcm.length < minBytes then ⟨s1, some pcm, none⟩
      else ⟨s1, some pcm, some ⟨u, createWavBuffer pcm SAMPLE_RATE CHANNELS, pcm⟩⟩

/-- A scheduled timer fires: only live handles ever fire (cleared or
already-fired handles are gone from `liveTimers`).  The callback marks the
user not-speaking and flushes. -/
def fireTimer (tm : Timer) (s : RecorderState) : FlushOut :=
  if tm ∈ s.liveTimers then
    flushAndSend tm.userId
      (clearTimeout tm.id
        { s with users := aupdate tm.userId (fun st => { st with isSpeaking := false }) s.users })
  else ⟨s, none, none⟩

/-- Cleanup of one user inside `destroy()`: clear the stored timer handle,
flush remaining audio, then destroy the decoder and opus stream (logged in
`closedStreams`). -/
def destroyUser (u : String) (s : RecorderState) : FlushOut :=
  match alookup u s.users with
  | none => ⟨s, none, none⟩
  | some st =>
    let s1 := match st.silenceTimer with
      | some h => clearTimeout h s
      | none => s
    let out := flushAndSend u s1
    ⟨{ out.state with closedStreams := out.state.closedStreams ++ [u] },
      out.drained, out.upload⟩

/-- Result of `destroy()`: final state plus the drains/uploads its per-user
flushes produced, in user order. -/
structure DestroyOut where
  state : RecorderState
  drains : List (List Nat)
  uploads : List Upload
deriving DecidableEq

/-- `Option.toList`, used to collect per-user flush effects. -/
def optList {α : Type} : Option α → List α
  | none => []
  | some a => [a]

/-- The `for (const [userId, userState] of this.users)` loop of `destroy()`. -/
def destroyLoop : List String → RecorderState → DestroyOut
  | [], s => ⟨s, [], []⟩
  | u :: ks, s =>
    let out := destroyUser u s
    let rest := destroyLoop ks out.state
    ⟨rest.state, optList out.drained ++ rest.drains, optList out.upload ++ rest.uploads⟩

/-- `destroy()`: set the destroyed flag, clean up every user (cancel timer,
flush, close streams), then clear the users map. -/
def destroy (s : RecorderState) : DestroyOut :=
  let r := destroyLoop (s.users.map Prod.fst) { s with destroyed := true }
  ⟨{ r.state with users := [] }, r.drains, r.uploads⟩

/-- External stimuli of one recorder: a "speaker started talking" signal, a
decoded PCM chunk, the opus stream's `close` event (whose handler is
`_flushAndSend`), and recorder teardown. -/
inductive REvent where
  | speaking (u : String)
  | chunk (u : String) (pcm : List Nat)
  | close (u : String)
  | teardown
deriving DecidableEq

/-- Fire every live timer whose deadline has passed, in schedule order,
collecting the drains each fire produced (tagged with the fire time). -/
def fireDue (t : Nat) (s : RecorderState) : RecorderState × List (Nat × List Nat) :=
  (s.liveTimers.filter (fun tm => decide (tm.deadline ≤ t))).foldl
    (fun acc tm =>
      let out := fireTimer tm acc.1
      (out.state, acc.2 ++ (optList out.drained).map (fun pcm => (tm.deadline, pcm))))
    (s, [])

/-- Process one timed event: first fire every timer due by the event's
time, then dispatch the event itself.  The accumulated list collects every
flush that actually drained a buffer, tagged with the time it ran. -/
def stepTimed (acc : RecorderState × List (Nat × List Nat)) (ev : Nat × REvent) :
    RecorderState × List (Nat × List Nat) :=
  let fd := fireDue ev.1 acc.1
  let s1 := fd.1
  let ds := acc.2 ++ fd.2
  match ev.2 with
  | .speaking u => (handleUserSpeaking ev.1 u s1, ds)
  | .chunk u pcm => (decoderData ev.1 u pcm s1, ds)
  | .close u =>
    let out := flushAndSend u s1
    (out.state, ds ++ (optList out.drained).map (fun pcm => (ev.1, pcm)))
  | .teardown =>
    let out := destroy s1
    (out.state, ds ++ out.drains.map (fun pcm => (ev.1, pcm)))

/-- Run a timed event list from a given recorder state. -/
def runEvents (evs : List (Nat × REvent)) (s : RecorderState) :
    RecorderState × List (Nat × List Nat) :=
  evs.foldl stepTimed (s, [])

/-- After the last external event, let every remaining live timer fire at
its deadline. -/
def finishRun (p : RecorderState × List (Nat × List Nat)) :
    RecorderState × List (Nat × List Nat) :=
  p.1.liveTimers.foldl
    (fun acc tm =>
      let out := fireTimer tm acc.1
      (out.state, acc.2 ++ (optList out.drained).map (fun pcm => (tm.deadline, pcm))))
    p

/-- A complete run: events from a fresh recorder, then quiescence. -/
def runSession (evs : List (Nat × REvent)) (g : String) :
    RecorderState × List (Nat × List Nat) :=
  finishRun (runEvents evs (initialRecorder g))

/-- Time constraints of claim C1: chunk arrival times are ordered and every
gap between consecutive chunks is shorter than the quiet period. -/
def gapsOk : Nat → List (Nat × List Nat) → Prop
  | _, [] => True
  | prev, tc :: rest => prev ≤ tc.1 ∧ tc.1 < prev + SILENCE_DURATION_MS ∧ gapsOk tc.1 rest

instance gapsOkDec : (prev : Nat) → (l : List (Nat × List Nat)) → Decidable (gapsOk prev l)
  | _, [] => isTrue trivial
  | _, tc :: rest =>
    have : Decidable (gapsOk tc.1 rest) := gapsOkDec tc.1 rest
    inferInstanceAs (Decidable (_ ∧ _ ∧ _))

/-- Arrival time of the last chunk (`prev` when the list is empty). -/
def lastT (prev : Nat) (l : List (Nat × List Nat)) : Nat :=
  l.foldl (fun _ tc => tc.1) prev

/-- The recorder state mid-utterance: one tracked user holding buffered
chunks `acc`, whose current silence timer (handle `j`, the `j`-th created)
expires one quiet period after the last chunk time `tprev`. -/
def midRec (g u : String) (acc : List (List Nat)) (tprev j : Nat) : RecorderState :=
  ⟨g, [(u, ⟨u, acc, true, some j⟩)], false, [⟨j, u, tprev + SILENCE_DURATION_MS⟩],
    j + 1, [u], []⟩

/-- One guild's voice connection in the `@discordjs/voice` registry:
connection id and whether the `Destroyed` status handler (which tears down
the recorder) has been attached (it is attached only after the connection
reaches Ready). -/
structure ConnEntry where
  id : Nat
  handlerAttached : Bool
deriving DecidableEq

/-- Voice manager state: the library's guild → connection registry, the
module-level guild → recorder map, and a fresh connection id counter. -/
structure ManagerState where
  connections : List (String × ConnEntry)
  recorders : List (String × RecorderState)
  nextConnId : Nat
deriving DecidableEq

/-- Primitive teardown/registration actions of `joinVoiceChannel`, in the
order they run. -/
inductive MAction where
  | destroyConn (id : Nat)
  | destroyRecorder (g : String)
  | deleteRecorder (g : String)
  | createConn (id : Nat)
  | setRecorder (g : String)
deriving DecidableEq

/-- Result of a `joinVoiceChannel` call: final manager state, the trace of
effectful actions in execution order, the post-`destroy()` states of every
recorder torn down on the way, and whether the join succeeded. -/
structure JoinOut where
  state : ManagerState
  trace : List MAction
  retired : List RecorderState
  ok : Bool
deriving DecidableEq

/-- `connection.destroy()`: remove the connection from the library registry;
if the `Destroyed` status handler is attached it runs synchronously:
`recorders.get(g)?.destroy(); recorders.delete(g)`. -/
def connDestroy (g : String) (e : ConnEntry) (m : ManagerState) :
    ManagerState × List MAction × List RecorderState :=
  let m1 := { m with connections := aremove g m.connections }
  if e.handlerAttached then
    match alookup g m1.recorders with
    | some r =>
      let d := destroy r
      ({ m1 with recorders := aremove g m1.recorders },
        [.destroyConn e.id, .destroyRecorder g, .deleteRecorder g], [d.state])
    | none => (m1, [.destroyConn e.id], [])
  else (m1, [.destroyConn e.id], [])

/-- Lines 16–22 of voiceManager.js: if a connection exists for the guild,
destroy it (running its `Destroyed` handler), then explicitly destroy and
delete any recorder still registered. -/
def joinTeardown (g : String) (m : ManagerState) :
    ManagerState × List MAction × List RecorderState :=
  match alookup g m.connections with
  | none => (m, [], [])
  | some e =>
    let r1 := connDestroy g e m
    match alookup g r1.1.recorders with
    | some r =>
      let d := destroy r
      ({ r1.1 with recorders := aremove g r1.1.recorders },
        r1.2.1 ++ [.destroyRecorder g, .deleteRecorder g], r1.2.2 ++ [d.state])
    | none => r1

/-- `joinVoiceChannel(voiceChannel, guild)`: tear down any existing entry,
create the new connection (entering the library registry), await readiness
(`ready`); on failure destroy the half-open connection (no handlers are
attached yet) and register nothing; on success register a fresh recorder
and attach the speaking/disconnect/destroy handlers. -/
def joinVoiceChannel (ready : Bool) (g : String) (m : ManagerState) : JoinOut :=
  let td := joinTeardown g m
  let m1 := td.1
  let cid := m1.nextConnId
  let m2 := { m1 with
    connections := m1.connections ++ [(g, ConnEntry.mk cid false)],
    nextConnId := cid + 1 }
  if ready then
    let m3 := { m2 with
      connections := aupdate g (fun e => { e with handlerAttached := true }) m2.connections,
      recorders := m2.recorders ++ [(g, initialRecorder g)] }
    ⟨m3, td.2.1 ++ [.createConn cid, .setRecorder g], td.2.2, true⟩
  else
    ⟨{ m2 with connections := aremove g m2.connections },
      td.2.1 ++ [.createConn cid, .destroyConn cid], td.2.2, false⟩

/-- Number of entries registered under key `k`. -/
def countKey {α : Type} (k : String) (l : List (String × α)) : Nat :=
  (l.map Prod.fst).count k

/-- The buffered chunk list of a tracked user, as an observation. -/
def chunksOf (v : String) (s : RecorderState) : Option (List (List Nat)) :=
  (alookup v s.users).map (·.audioChunks)

/-- Number of live silence timers watching user `u`. -/
def countLive (u : String) (s : RecorderState) : Nat :=
  (s.liveTimers.filter (fun tm => tm.userId == u)).length

/-- Every live timer is the one currently stored in its user's
`silenceTimer` slot (the cancel-before-reset discipline). -/
def ownedTimers (s : RecorderState) : Prop :=
  ∀ tm ∈ s.liveTimers, (alookup tm.userId s.users).map UserState.silenceTimer
    = some (some tm.id)

/-- Timer bookkeeping invariant: live timer ids are below the fresh-id
counter, pairwise distinct, and each live timer is owned by its user's
stored handle. -/
def timerInv (s : RecorderState) : Prop :=
  (∀ tm ∈ s.liveTimers, tm.id < s.nextTimerId) ∧
  (s.liveTimers.map Timer.id).Nodup ∧
  ownedTimers s

instance ownedTimersDec (s : RecorderState) : Decidable (ownedTimers s) := by
  unfold ownedTimers
  infer_instance

instance timerInvDec (s : RecorderState) : Decidable (timerInv s) := by
  unfold timerInv
  infer_instance

section AssocLemmas

variable {α : Type}

theorem alookup_aupdate_self (k : String) (f : α → α) (l : List (String × α)) :
    alookup k (aupdate k f l) = (alookup k l).map f := by
  induction l with
  | nil => simp [alookup, aupdate]
  | cons p l ih =>
    by_cases h : p.1 = k
    · simp [alookup, aupdate, h]
    · simpa [alookup, aupdate, h] using ih

theorem alookup_aupdate_ne {k' k : String} (h : k' ≠ k) (f : α → α)
    (l : List (String × α)) :
    alookup k' (aupdate k f l) = alookup k' l := by
  have hkk : ¬(k = k') := fun e => h e.symm
  induction l with
  | nil => simp [aupdate]
  | cons p l ih =>
    by_cases hp : p.1 = k
    · simpa [alookup, aupdate, hp, hkk] using ih
    · by_cases hp' : p.1 = k'
      · simp [alookup, aupdate, hp, hp', h]
      · simpa [alookup, aupdate, hp, hp'] using ih

theorem mapfst_aupdate (k : String) (f : α → α) (l : List (String × α)) :
    (aupdate k f l).map Prod.fst = l.map Prod.fst := by
  induction l with
  | nil => simp [aupdate]
  | cons p l ih =>
    by_cases h : p.1 = k <;> simpa [aupdate, h] using ih

theorem alookup_append_some {k : String} {l l2 : List (String × α)} {x : α}
    (h : alookup k l = some x) : alookup k (l ++ l2) = some x := by
  induction l with
  | nil => simp [alookup] at h
  | cons p l ih =>
    by_cases hp : p.1 = k
    · simp [alookup, hp] at h ⊢
      exact h
    · simp [alookup, hp] at h ⊢
      exact ih h

theorem alookup_append_none {k : String} {l : List (String × α)} (l2 : List (String × α))
    (h : alookup k l = none) : alookup k (l ++ l2) = alookup k l2 := by
  induction l with
  | nil => simp [alookup]
  | cons p l ih =>
    by_cases hp : p.1 = k
    · simp [alookup, hp] at h
    · simp [alookup, hp] at h ⊢
      exact ih h

theorem alookup_aremove_self (k : String) (l : List (String × α)) :
    alookup k (aremove k l) = none := by
  induction l with
  | nil => simp [alookup, aremove]
  | cons p l ih =>
    by_cases hp : p.1 = k <;> simpa [alookup, aremove, hp] using ih

theorem alookup_mem_keys {k : String} {l : List (String × α)} {x : α}
    (h : alookup k l = some x) : k ∈ l.map Prod.fst := by
  induction l with
  | nil => simp [alookup] at h
  | cons p l ih =>
    by_cases hp : p.1 = k
    · simp [hp]
    · simp only [List.map_cons, List.mem_cons]
      exact Or.inr (ih (by simpa [alookup, hp] using h))

theorem mem_keys_alookup {k : String} {l : List (String × α)}
    (h : k ∈ l.map Prod.fst) : ∃ x, alookup k l = some x := by
  induction l with
  | nil => simp at h
  | cons p l ih =>
    by_cases hp : p.1 = k
    · exact ⟨p.2, by simp [alookup, hp]⟩
    · rw [List.map_cons] at h
      have hm : k ∈ l.map Prod.fst := by
        rcases List.mem_cons.mp h with h1 | h2
        · exact absurd h1.symm hp
        · exact h2
      rcases ih hm with ⟨x, hx⟩
      exact ⟨x, by simpa [alookup, hp] using hx⟩

theorem countKey_aremove_self (k : String) (l : List (String × α)) :
    countKey k (aremove k l) = 0 := by
  induction l with
  | nil => simp [countKey, aremove]
  | cons p l ih =>
    by_cases hp : p.1 = k <;>
      simpa [countKey, aremove, hp, List.count_cons] using ih

theorem countKey_aupdate (k' k : String) (f : α → α) (l : List (String × α)) :
    countKey k' (aupdate k f l) = countKey k' l := by
  simp [countKey, mapfst_aupdate]

theorem countKey_append (k : String) (l l2 : List (String × α)) :
    countKey k (l ++ l2) = countKey k l + countKey k l2 := by
  simp [countKey, List.count_append]

theorem countKey_singleton_self (k : String) (x : α) :
    countKey k [(k, x)] = 1 := by
  simp [countKey]

end AssocLemmas

theorem createWav_shape (pcm : List Nat) (r c : Nat) :
    createWavBuffer pcm r c =
      82 :: 73 :: 70 :: 70 ::
      ((36 + pcm.length) % 256) :: ((36 + pcm.length) / 256 % 256) ::
        ((36 + pcm.length) / 65536 % 256) :: ((36 + pcm.length) / 16777216 % 256) ::
      87 :: 65 :: 86 :: 69 ::
      102 :: 109 :: 116 :: 32 ::
      16 :: 0 :: 0 :: 0 ::
      1 :: 0 ::
      (c % 256) :: (c / 256 % 256) ::
      (r % 256) :: (r / 256 % 256) :: (r / 65536 % 256) :: (r / 16777216 % 256) ::
      ((r * c * 2) % 256) :: ((r * c * 2) / 256 % 256) ::
        ((r * c * 2) / 65536 % 256) :: ((r * c * 2) / 16777216 % 256) ::
      ((c * 2) % 256) :: ((c * 2) / 256 % 256) ::
      16 :: 0 ::
      100 :: 97 :: 116 :: 97 ::
      (pcm.length % 256) :: (pcm.length / 256 % 256) ::
        (pcm.length / 65536 % 256) :: (pcm.length / 16777216 % 256) ::
      pcm := by
  simp [createWavBuffer, writeUInt16LE, writeUInt32LE, asciiRIFF, asciiWAVE,
    asciiFmtSpace, asciiData]

/-- Claim C2: for every buffer of N interleaved 16-bit samples, sample rate R
and channel count C, the container encoder produces a buffer of exactly
44 + N×2 bytes whose header declares PCM format code 1, channels C, sample
rate R, byte rate R×C×2, block align C×2, 16 bits per sample and a data-chunk
size of exactly N×2 bytes, followed by the input payload unchanged; reading
the header back yields R, C and N×2.  (The in-range hypotheses reflect that
Node's `writeUIntNLE` throws on out-of-range values rather than wrapping.) -/
theorem wav_header_roundtrip (pcm : List Nat) (r c N : Nat)
    (hplen : pcm.length = 2 * N)
    (hc : c < 65536) (hc2 : c * 2 < 65536)
    (hr : r < 4294967296) (hbr : r * c * 2 < 4294967296)
    (hN : 2 * N < 4294967296) :
    (createWavBuffer pcm r c).length = 44 + 2 * N ∧
    bufReadUInt16LE (createWavBuffer pcm r c) 20 = 1 ∧
    bufReadUInt16LE (createWavBuffer pcm r c) 22 = c ∧
    bufReadUInt32LE (createWavBuffer pcm r c) 24 = r ∧
    bufReadUInt32LE (createWavBuffer pcm r c) 28 = r * c * 2 ∧
    bufReadUInt16LE (createWavBuffer pcm r c) 32 = c * 2 ∧
    bufReadUInt16LE (createWavBuffer pcm r c) 34 = 16 ∧
    bufReadUInt32LE (createWavBuffer pcm r c) 40 = 2 * N ∧
    (createWavBuffer pcm r c).drop 44 = pcm := by
  rw [createWav_shape]
  refine ⟨?_, ?_, ?_, ?_, ?_, ?_, ?_, ?_, ?_⟩
  · simp only [List.length_cons]
    omega
  · rfl
  · show c % 256 + 256 * (c / 256 % 256) = c
    omega
  · show r % 256 + 256 * (r / 256 % 256 + 256 * (r / 65536 % 256 +
      256 * (r / 16777216 % 256))) = r
    omega
  · show (r * c * 2) % 256 + 256 * ((r * c * 2) / 256 % 256 +
      256 * ((r * c * 2) / 65536 % 256 + 256 * ((r * c * 2) / 16777216 % 256))) = r * c * 2
    omega
  · show (c * 2) % 256 + 256 * ((c * 2) / 256 % 256) = c * 2
    omega
  · rfl
  · show pcm.length % 256 + 256 * (pcm.length / 256 % 256 +
      256 * (pcm.length / 65536 % 256 + 256 * (pcm.length / 16777216 % 256))) = 2 * N
    omega
  · rfl

/-- Witness for C2 at a concrete input: N = 2 samples, 48000 Hz, stereo. -/
theorem wav_header_roundtrip_witness :
    (createWavBuffer [1, 2, 3, 4] 48000 2).length = 44 + 2 * 2 ∧
    bufReadUInt16LE (createWavBuffer [1, 2, 3, 4] 48000 2) 20 = 1 ∧
    bufReadUInt16LE (createWavBuffer [1, 2, 3, 4] 48000 2) 22 = 2 ∧
    bufReadUInt32LE (createWavBuffer [1, 2, 3, 4] 48000 2) 24 = 48000 ∧
    bufReadUInt32LE (createWavBuffer [1, 2, 3, 4] 48000 2) 28 = 48000 * 2 * 2 ∧
    bufReadUInt16LE (createWavBuffer [1, 2, 3, 4] 48000 2) 32 = 2 * 2 ∧
    bufReadUInt16LE (createWavBuffer [1, 2, 3, 4] 48000 2) 34 = 16 ∧
    bufReadUInt32LE (createWavBuffer [1, 2, 3, 4] 48000 2) 40 = 2 * 2 ∧
    (createWavBuffer [1, 2, 3, 4] 48000 2).drop 44 = [1, 2, 3, 4] :=
  wav_header_roundtrip [1, 2, 3, 4] 48000 2 2 (by decide) (by decide) (by decide)
    (by decide) (by decide) (by decide)

theorem flush_state_cases (u : String) (s : RecorderState) :
    (flushAndSend u s).state = s ∨
    (flushAndSend u s).state =
      { s with users := aupdate u (fun st => { st with audioChunks := [] }) s.users } := by
  cases halk : alookup u s.users with
  | none => exact Or.inl (by simp [flushAndSend, halk])
  | some st =>
    by_cases he : st.audioChunks = []
    · exact Or.inl (by simp [flushAndSend, halk, he])
    · right
      simp only [flushAndSend, halk]
      rw [if_neg he]
      split_ifs <;> rfl

theorem flush_missing {u : String} {s : RecorderState}
    (h : alookup u s.users = none) : flushAndSend u s = ⟨s, none, none⟩ := by
  simp [flushAndSend, h]

theorem flush_empty {u : String} {s : RecorderState} {st : UserState}
    (h : alookup u s.users = some st) (he : st.audioChunks = []) :
    flushAndSend u s = ⟨s, none, none⟩ := by
  simp [flushAndSend, h, he]

theorem flush_destroyed (u : String) (s : RecorderState) :
    (flushAndSend u s).state.destroyed = s.destroyed := by
  rcases flush_state_cases u s with h | h <;> rw [h]

theorem flush_lookup_self (u : String) (s : RecorderState) :
    ∀ st', alookup u (flushAndSend u s).state.users = some st' →
      st'.audioChunks = [] := by
  intro st' h'
  cases halk : alookup u s.users with
  | none =>
    rw [flush_missing halk] at h'
    rw [halk] at h'
    cases h'
  | some st =>
    by_cases he : st.audioChunks = []
    · rw [flush_empty halk he, halk] at h'
      cases h'
      exact he
    · have hst : (flushAndSend u s).state =
          { s with users := aupdate u (fun st => { st with audioChunks := [] }) s.users } := by
        simp only [flushAndSend, halk]
        rw [if_neg he]
        split_ifs <;> rfl
      rw [hst] at h'
      simp only [alookup_aupdate_self, halk, Option.map_some] at h'
      cases h'
      rfl

/-- Claim C4: `flush()` is a no-op on an empty buffer, and flushing again
right after any flush drains and uploads nothing — each flush drains the
buffer synchronously before any further processing, so the same drained
contents can never be uploaded twice (at-most-once delivery). -/
theorem flush_at_most_once (u : String) (s : RecorderState) :
    (∀ st, alookup u s.users = some st → st.audioChunks = [] →
      flushAndSend u s = ⟨s, none, none⟩) ∧
    flushAndSend u (flushAndSend u s).state =
      ⟨(flushAndSend u s).state, none, none⟩ := by
  constructor
  · intro st h he
    exact flush_empty h he
  · cases halk : alookup u (flushAndSend u s).state.users with
    | none => exact flush_missing halk
    | some st' => exact flush_empty halk (flush_lookup_self u s st' halk)

/-- Witness for C4 at a concrete state (one user with a buffered chunk). -/
theorem flush_at_most_once_witness :
    (∀ st, alookup "a" (RecorderState.mk "g" [("a", ⟨"a", [[1, 2, 3]], true, none⟩)]
        false [] 0 [] []).users = some st → st.audioChunks = [] →
      flushAndSend "a" (RecorderState.mk "g" [("a", ⟨"a", [[1, 2, 3]], true, none⟩)]
        false [] 0 [] []) =
        ⟨RecorderState.mk "g" [("a", ⟨"a", [[1, 2, 3]], true, none⟩)] false [] 0 [] [],
          none, none⟩) ∧
    flushAndSend "a" (flushAndSend "a" (RecorderState.mk "g"
        [("a", ⟨"a", [[1, 2, 3]], true, none⟩)] false [] 0 [] [])).state =
      ⟨(flushAndSend "a" (RecorderState.mk "g" [("a", ⟨"a", [[1, 2, 3]], true, none⟩)]
        false [] 0 [] [])).state, none, none⟩ :=
  flush_at_most_once "a" (RecorderState.mk "g" [("a", ⟨"a", [[1, 2, 3]], true, none⟩)]
    false [] 0 [] [])

/-- Claim C3: a flush whose drained buffer is below the 100 ms floor
(`minBytes = 19200` bytes at 48000 Hz stereo 16-bit) drains the buffer but
makes no upload call and raises no error; a flush at or above the floor
invokes the container encoder and the upload exactly once. -/
theorem min_duration_floor (u : String) (s : RecorderState) (st : UserState)
    (hu : alookup u s.users = some st) (hne : st.audioChunks ≠ []) :
    minBytes = 19200 ∧
    (flushAndSend u s).drained = some st.audioChunks.flatten ∧
    (flushAndSend u s).upload =
      (if st.audioChunks.flatten.length < minBytes then none
       else some ⟨u, createWavBuffer st.audioChunks.flatten SAMPLE_RATE CHANNELS,
         st.audioChunks.flatten⟩) := by
  refine ⟨rfl, ?_, ?_⟩ <;>
  · simp only [flushAndSend, hu]
    rw [if_neg hne]
    split_ifs <;> rfl

/-- Witness for C3: a 3-byte utterance is drained but not uploaded. -/
theorem min_duration_floor_witness :
    minBytes = 19200 ∧
    (flushAndSend "a" (RecorderState.mk "g" [("a", ⟨"a", [[7, 8], [9]], true, none⟩)]
      false [] 0 [] [])).drained = some (UserState.mk "a" [[7, 8], [9]] true none).audioChunks.flatten ∧
    (flushAndSend "a" (RecorderState.mk "g" [("a", ⟨"a", [[7, 8], [9]], true, none⟩)]
      false [] 0 [] [])).upload =
      (if (UserState.mk "a" [[7, 8], [9]] true none).audioChunks.flatten.length < minBytes then none
       else some ⟨"a", createWavBuffer (UserState.mk "a" [[7, 8], [9]] true none).audioChunks.flatten
         SAMPLE_RATE CHANNELS, (UserState.mk "a" [[7, 8], [9]] true none).audioChunks.flatten⟩) :=
  min_duration_floor "a" (RecorderState.mk "g" [("a", ⟨"a", [[7, 8], [9]], true, none⟩)]
    false [] 0 [] []) (UserState.mk "a" [[7, 8], [9]] true none) (by decide) (by decide)

theorem reset_destroyed (now : Nat) (u : String) (s : RecorderState) :
    (resetSilenceTimer now u s).destroyed = s.destroyed := by
  cases halk : alookup u s.users with
  | none => simp [resetSilenceTimer, halk]
  | some st =>
    cases hst : st.silenceTimer <;>
      simp [resetSilenceTimer, halk, hst, clearTimeout]

theorem reset_chunksOf (now : Nat) (u v : String) (s : RecorderState) :
    chunksOf v (resetSilenceTimer now u s) = chunksOf v s := by
  cases halk : alookup u s.users with
  | none => simp [resetSilenceTimer, halk]
  | some st =>
    by_cases hv : v = u
    · subst hv
      cases hst : st.silenceTimer <;>
        simp [chunksOf, resetSilenceTimer, halk, hst, clearTimeout, alookup_aupdate_self]
    · cases hst : st.silenceTimer <;>
        simp [chunksOf, resetSilenceTimer, halk, hst, clearTimeout, alookup_aupdate_ne hv]

theorem decoder_destroyed (t : Nat) (u : String) (c : List Nat) (s : RecorderState) :
    (decoderData t u c s).destroyed = s.destroyed := by
  by_cases hd : s.destroyed <;> simp [decoderData, hd, reset_destroyed]

theorem decoder_chunksOf (t : Nat) (u : String) (c : List Nat) (s : RecorderState)
    (hd : s.destroyed = false) :
    chunksOf u (decoderData t u c s) = (chunksOf u s).map (· ++ [c]) := by
  simp only [decoderData, hd, Bool.false_eq_true, if_false]
  rw [reset_chunksOf]
  simp only [chunksOf, alookup_aupdate_self, Option.map_map]
  cases h : alookup u s.users <;> simp [h]

theorem decoderFold_chunksOf (u : String) (tcs : List (Nat × List Nat)) :
    ∀ s : RecorderState, s.destroyed = false →
      chunksOf u (tcs.foldl (fun s' tc => decoderData tc.1 u tc.2 s') s)
          = (chunksOf u s).map (· ++ tcs.map Prod.snd) ∧
        (tcs.foldl (fun s' tc => decoderData tc.1 u tc.2 s') s).destroyed = false := by
  induction tcs with
  | nil =>
    intro s hd
    refine ⟨?_, hd⟩
    simp only [List.foldl_nil, List.map_nil]
    cases h : chunksOf u s <;> simp [h]
  | cons tc tcs ih =>
    intro s hd
    have hd1 : (decoderData tc.1 u tc.2 s).destroyed = false := by
      rw [decoder_destroyed]; exact hd
    rcases ih (decoderData tc.1 u tc.2 s) hd1 with ⟨ha, hb⟩
    refine ⟨?_, by simpa using hb⟩
    simp only [List.foldl_cons]
    rw [ha, decoder_chunksOf tc.1 u tc.2 s hd]
    cases h : chunksOf u s <;> simp [h]

theorem flush_chunks_after {u : String} {s : RecorderState} {st : UserState}
    (hu : alookup u s.users = some st) :
    chunksOf u (flushAndSend u s).state = some [] := by
  by_cases he : st.audioChunks = []
  · rw [flush_empty hu he]
    simp [chunksOf, hu, he]
  · have hst : (flushAndSend u s).state =
        { s with users := aupdate u (fun st => { st with audioChunks := [] }) s.users } := by
      simp only [flushAndSend, hu]
      rw [if_neg he]
      split_ifs <;> rfl
    rw [hst]
    simp [chunksOf, alookup_aupdate_self, hu]

theorem flush_drained {u : String} {s : RecorderState} {st : UserState}
    (hu : alookup u s.users = some st) (hne : st.audioChunks ≠ []) :
    (flushAndSend u s).drained = some st.audioChunks.flatten := by
  simp only [flushAndSend, hu]
  rw [if_neg hne]
  split_ifs <;> rfl

/-- Claim C10: the internal flush drains the chunk buffer before the
minimum-duration check and the upload attempt — when its synchronous part
completes the buffer is empty, so discarded or failed audio is never
restored or merged into a later utterance: a later flush drains exactly the
chunks delivered after this one. -/
theorem flush_drains_buffer (u : String) (s : RecorderState) (st : UserState)
    (tcs : List (Nat × List Nat))
    (hu : alookup u s.users = some st) (hd : s.destroyed = false) (hne : tcs ≠ []) :
    (∀ st', alookup u (flushAndSend u s).state.users = some st' →
      st'.audioChunks = []) ∧
    (flushAndSend u (tcs.foldl (fun s' tc => decoderData tc.1 u tc.2 s')
        (flushAndSend u s).state)).drained = some (tcs.map Prod.snd).flatten := by
  refine ⟨flush_lookup_self u s, ?_⟩
  have hd1 : (flushAndSend u s).state.destroyed = false := by
    rw [flush_destroyed]; exact hd
  rcases decoderFold_chunksOf u tcs (flushAndSend u s).state hd1 with ⟨ha, _⟩
  rw [flush_chunks_after hu] at ha
  simp at ha
  rcases Option.map_eq_some'.mp ha with ⟨st'', hst'', hchunks⟩
  have hne'' : st''.audioChunks ≠ [] := by
    rw [hchunks]
    intro hmap
    exact hne (List.map_eq_nil_iff.mp hmap)
  rw [flush_drained hst'' hne'', hchunks]

/-- Witness for C10: after a flush, a later flush of two newly delivered
chunks drains exactly those two chunks. -/
theorem flush_drains_buffer_witness :
    (∀ st', alookup "a" (flushAndSend "a" (RecorderState.mk "g"
        [("a", ⟨"a", [[1]], true, none⟩)] false [] 0 [] [])).state.users = some st' →
      st'.audioChunks = []) ∧
    (flushAndSend "a" (([((0 : Nat), [2]), ((5 : Nat), [3])]).foldl
        (fun s' tc => decoderData tc.1 "a" tc.2 s')
        (flushAndSend "a" (RecorderState.mk "g"
          [("a", ⟨"a", [[1]], true, none⟩)] false [] 0 [] [])).state)).drained
      = some (([((0 : Nat), [2]), ((5 : Nat), [3])]).map Prod.snd).flatten :=
  flush_drains_buffer "a" (RecorderState.mk "g" [("a", ⟨"a", [[1]], true, none⟩)]
    false [] 0 [] []) (UserState.mk "a" [[1]] true none)
    [((0 : Nat), [2]), ((5 : Nat), [3])] (by decide) (by decide) (by decide)

theorem destroyUser_destroyed (u : String) (s : RecorderState) :
    (destroyUser u s).state.destroyed = s.destroyed := by
  cases halk : alookup u s.users with
  | none => simp [destroyUser, halk]
  | some st =>
    cases hst : st.silenceTimer <;>
      simp [destroyUser, halk, hst, flush_destroyed, clearTimeout]

theorem destroyLoop_destroyed (ks : List String) :
    ∀ s : RecorderState, (destroyLoop ks s).state.destroyed = s.destroyed := by
  induction ks with
  | nil => intro s; rfl
  | cons u ks ih =>
    intro s
    simp [destroyLoop, ih, destroyUser_destroyed]

theorem destroy_on_cleared (x : RecorderState) (hu : x.users = [])
    (hd : x.destroyed = true) : destroy x = ⟨x, [], []⟩ := by
  unfold destroy
  rw [hu]
  simp only [List.map_nil, destroyLoop]
  cases x
  simp_all

/-- Claim C6: calling `destroy()` a second time on the same recorder is a
no-op — the users map is already empty and the destroyed flag already set,
so the second call performs no flush, no upload, and leaves the state of
the first `destroy()` unchanged. -/
theorem destroy_idempotent (s : RecorderState) :
    destroy (destroy s).state = ⟨(destroy s).state, [], []⟩ := by
  refine destroy_on_cleared _ rfl ?_
  show ({ (destroyLoop (s.users.map Prod.fst) { s with destroyed := true }).state
      with users := [] } : RecorderState).destroyed = true
  simp [destroyLoop_destroyed]

theorem reset_subscriptions (now : Nat) (u : String) (s : RecorderState) :
    (resetSilenceTimer now u s).subscriptions = s.subscriptions := by
  cases halk : alookup u s.users with
  | none => simp [resetSilenceTimer, halk]
  | some st =>
    cases hst : st.silenceTimer <;>
      simp [resetSilenceTimer, halk, hst, clearTimeout]

theorem reset_keys (now : Nat) (u : String) (s : RecorderState) :
    (resetSilenceTimer now u s).users.map Prod.fst = s.users.map Prod.fst := by
  cases halk : alookup u s.users with
  | none => simp [resetSilenceTimer, halk]
  | some st =>
    cases hst : st.silenceTimer <;>
      simp [resetSilenceTimer, halk, hst, clearTimeout, mapfst_aupdate]

theorem handle_destroyed (t : Nat) (u : String) (s : RecorderState) :
    (handleUserSpeaking t u s).destroyed = s.destroyed := by
  by_cases hd : s.destroyed
  · simp [handleUserSpeaking, hd]
  · cases halk : alookup u s.users <;>
      simp [handleUserSpeaking, hd, halk, reset_destroyed]

theorem handle_existing (t : Nat) (u : String) (s : RecorderState)
    (hd : s.destroyed = false) (hm : u ∈ s.users.map Prod.fst) :
    (handleUserSpeaking t u s).subscriptions = s.subscriptions ∧
    (handleUserSpeaking t u s).users.map Prod.fst = s.users.map Prod.fst := by
  rcases mem_keys_alookup hm with ⟨st, halk⟩
  simp only [handleUserSpeaking, hd, Bool.false_eq_true, if_false, halk]
  exact ⟨by rw [reset_subscriptions],
    by rw [reset_keys]; exact mapfst_aupdate u _ s.users⟩

theorem handle_fresh (t : Nat) (u : String) (s : RecorderState)
    (hd : s.destroyed = false) (halk : alookup u s.users = none) :
    (handleUserSpeaking t u s).subscriptions = s.subscriptions ++ [u] ∧
    (handleUserSpeaking t u s).users.map Prod.fst = s.users.map Prod.fst ++ [u] := by
  simp only [handleUserSpeaking, hd, Bool.false_eq_true, if_false, halk]
  exact ⟨by rw [reset_subscriptions], by rw [reset_keys]; simp⟩

theorem handleFold_keys (u : String) (ts : List Nat) :
    ∀ s : RecorderState, s.destroyed = false → u ∈ s.users.map Prod.fst →
      (ts.foldl (fun s' t => handleUserSpeaking t u s') s).subscriptions
          = s.subscriptions ∧
        (ts.foldl (fun s' t => handleUserSpeaking t u s') s).users.map Prod.fst
          = s.users.map Prod.fst := by
  induction ts with
  | nil => intro s _ _; exact ⟨rfl, rfl⟩
  | cons t ts ih =>
    intro s hd hm
    have he := handle_existing t u s hd hm
    have hd1 : (handleUserSpeaking t u s).destroyed = false := by
      rw [handle_destroyed]; exact hd
    have hm1 : u ∈ (handleUserSpeaking t u s).users.map Prod.fst := by
      rw [he.2]; exact hm
    rcases ih _ hd1 hm1 with ⟨ha, hb⟩
    simp only [List.foldl_cons]
    exact ⟨by rw [ha, he.1], by rw [hb, he.2]⟩

/-- Claim C8: once a speaker's session is registered, every further
"speaker started" signal only refreshes the flag and timer — the sequence
starting from an untracked speaker subscribes exactly once (the
subscription log grows by exactly one entry) and creates exactly one
session (the users map gains exactly one key). -/
theorem no_duplicate_subscription (u : String) (s0 : RecorderState) (t0 : Nat)
    (ts : List Nat) (hd : s0.destroyed = false) (hu : alookup u s0.users = none) :
    (ts.foldl (fun s' t => handleUserSpeaking t u s') (handleUserSpeaking t0 u s0)).subscriptions
        = s0.subscriptions ++ [u] ∧
      (ts.foldl (fun s' t => handleUserSpeaking t u s')
          (handleUserSpeaking t0 u s0)).users.map Prod.fst
        = s0.users.map Prod.fst ++ [u] := by
  have hf := handle_fresh t0 u s0 hd hu
  have hd1 : (handleUserSpeaking t0 u s0).destroyed = false := by
    rw [handle_destroyed]; exact hd
  have hm1 : u ∈ (handleUserSpeaking t0 u s0).users.map Prod.fst := by
    rw [hf.2]; simp
  rcases handleFold_keys u ts _ hd1 hm1 with ⟨ha, hb⟩
  exact ⟨by rw [ha, hf.1], by rw [hb, hf.2]⟩

/-- Witness for C8: three speaking signals for the same user from a fresh
recorder yield one subscription and one session. -/
theorem no_duplicate_subscription_witness :
    (([5, 20] : List Nat).foldl (fun s' t => handleUserSpeaking t "a" s')
        (handleUserSpeaking 0 "a" (initialRecorder "g"))).subscriptions
        = (initialRecorder "g").subscriptions ++ ["a"] ∧
      (([5, 20] : List Nat).foldl (fun s' t => handleUserSpeaking t "a" s')
          (handleUserSpeaking 0 "a" (initialRecorder "g"))).users.map Prod.fst
        = (initialRecorder "g").users.map Prod.fst ++ ["a"] :=
  no_duplicate_subscription "a" (initialRecorder "g") 0 [5, 20] (by decide) (by decide)

theorem fireDue_quiet (t : Nat) (s : RecorderState)
    (h : ∀ tm ∈ s.liveTimers, t < tm.deadline) : fireDue t s = (s, []) := by
  have hf : s.liveTimers.filter (fun tm => decide (tm.deadline ≤ t)) = [] := by
    rw [List.filter_eq_nil_iff]
    intro tm hm
    simpa using Nat.not_le.mpr (h tm hm)
  unfold fireDue
  rw [hf]
  rfl

theorem stepTimed_speaking (p : RecorderState × List (Nat × List Nat))
    (t : Nat) (u : String) :
    stepTimed p (t, REvent.speaking u)
      = (handleUserSpeaking t u (fireDue t p.1).1, p.2 ++ (fireDue t p.1).2) := rfl

theorem stepTimed_chunk (p : RecorderState × List (Nat × List Nat))
    (t : Nat) (u : String) (c : List Nat) :
    stepTimed p (t, REvent.chunk u c)
      = (decoderData t u c (fireDue t p.1).1, p.2 ++ (fireDue t p.1).2) := rfl

theorem speakStep_initial (g u : String) (t0 : Nat) :
    stepTimed (initialRecorder g, []) (t0, REvent.speaking u)
      = (midRec g u [] t0 0, []) := by
  rw [stepTimed_speaking]
  dsimp only
  rw [fireDue_quiet t0 (initialRecorder g) (by intro tm hm; simp [initialRecorder] at hm)]
  dsimp only
  rw [List.append_nil]
  simp [handleUserSpeaking, initialRecorder, resetSilenceTimer, alookup, aupdate,
    freshUserState, midRec]

theorem decoder_mid (g u : String) (acc : List (List Nat)) (tprev j t : Nat)
    (c : List Nat) :
    decoderData t u c (midRec g u acc tprev j) = midRec g u (acc ++ [c]) t (j + 1) := by
  simp [decoderData, midRec, resetSilenceTimer, alookup, aupdate, clearTimeout]

theorem dataStep_mid (g u : String) (acc : List (List Nat)) (tprev j t : Nat)
    (c : List Nat) (ds : List (Nat × List Nat))
    (h2 : t < tprev + SILENCE_DURATION_MS) :
    stepTimed (midRec g u acc tprev j, ds) (t, REvent.chunk u c)
      = (midRec g u (acc ++ [c]) t (j + 1), ds) := by
  have hq : fireDue t (midRec g u acc tprev j) = (midRec g u acc tprev j, []) := by
    apply fireDue_quiet
    intro tm hm
    simp only [midRec, List.mem_singleton] at hm
    subst hm
    exact h2
  rw [stepTimed_chunk]
  dsimp only
  rw [hq]
  dsimp only
  rw [List.append_nil, decoder_mid]

theorem firstData_mid (g u : String) (t0 t : Nat) (c : List Nat)
    (ds : List (Nat × List Nat)) (_h1 : t0 ≤ t) :
    stepTimed (midRec g u [] t0 0, ds) (t, REvent.chunk u c)
      = (midRec g u [c] t 1, ds) := by
  by_cases hf : t0 + SILENCE_DURATION_MS ≤ t
  · have hfd : fireDue t (midRec g u [] t0 0)
        = (⟨g, [(u, ⟨u, [], false, some 0⟩)], false, [], 1, [u], []⟩, []) := by
      simp [fireDue, midRec, hf, fireTimer, clearTimeout, flushAndSend, alookup,
        aupdate, optList]
    rw [stepTimed_chunk]
    dsimp only
    rw [hfd]
    dsimp only
    rw [List.append_nil]
    simp [decoderData, resetSilenceTimer, alookup, aupdate, clearTimeout, midRec]
  · simpa using dataStep_mid g u [] t0 0 t c ds (by omega)

theorem chunkLoop_mid (g u : String) (rest : List (Nat × List Nat)) :
    ∀ (acc : List (List Nat)) (tprev j : Nat) (ds : List (Nat × List Nat)),
      gapsOk tprev rest →
      (rest.map (fun tc => (tc.1, REvent.chunk u tc.2))).foldl stepTimed
          (midRec g u acc tprev j, ds)
        = (midRec g u (acc ++ rest.map Prod.snd) (lastT tprev rest)
            (j + rest.length), ds) := by
  induction rest with
  | nil =>
    intro acc tprev j ds _
    simp [lastT]
  | cons tc rest ih =>
    intro acc tprev j ds hg
    rcases hg with ⟨hle, hlt, hg'⟩
    simp only [List.map_cons, List.foldl_cons]
    rw [dataStep_mid g u acc tprev j tc.1 tc.2 ds hlt]
    rw [ih (acc ++ [tc.2]) tc.1 (j + 1) ds hg']
    rw [show (acc ++ [tc.2]) ++ rest.map Prod.snd
        = acc ++ (tc.2 :: rest.map Prod.snd) by simp]
    rw [show j + 1 + rest.length = j + (rest.length + 1) by omega]
    rfl

theorem finish_mid (g u : String) (c0 : List Nat) (cs : List (List Nat))
    (tprev j : Nat) (ds : List (Nat × List Nat)) :
    (finishRun (midRec g u (c0 :: cs) tprev j, ds)).2
      = ds ++ [(tprev + SILENCE_DURATION_MS, (c0 :: cs).flatten)] := by
  have hfire : (fireTimer ⟨j, u, tprev + SILENCE_DURATION_MS⟩
      (midRec g u (c0 :: cs) tprev j)).drained = some (c0 :: cs).flatten := by
    have hmem : (⟨j, u, tprev + SILENCE_DURATION_MS⟩ : Timer)
        ∈ (midRec g u (c0 :: cs) tprev j).liveTimers := by
      simp [midRec]
    rw [fireTimer, if_pos hmem]
    have halk : alookup u (clearTimeout j { midRec g u (c0 :: cs) tprev j with users := aupdate u (fun st => { st with isSpeaking := false }) (midRec g u (c0 :: cs) tprev j).users }).users = some ⟨u, c0 :: cs, false, some j⟩ := by
      simp [midRec, clearTimeout, aupdate, alookup]
    exact flush_drained halk (by simp)
  have hfold : (finishRun (midRec g u (c0 :: cs) tprev j, ds)).2
      = ds ++ (optList (fireTimer ⟨j, u, tprev + SILENCE_DURATION_MS⟩
          (midRec g u (c0 :: cs) tprev j)).drained).map
            (fun pcm => (tprev + SILENCE_DURATION_MS, pcm)) := rfl
  rw [hfold, hfire]
  simp [optList]

/-- Claim C1: for a session receiving chunks whose consecutive gaps are all
shorter than the quiet period, exactly one flush occurs; it fires one quiet
period (1000 ms) after the last chunk and drains exactly the concatenation
of all delivered chunks in arrival order. -/
theorem utterance_coalescing (g u : String) (t0 : Nat) (c : Nat × List Nat)
    (rest : List (Nat × List Nat)) (h0 : t0 ≤ c.1) (hg : gapsOk c.1 rest) :
    (runSession ((t0, REvent.speaking u) ::
        ((c :: rest).map (fun tc => (tc.1, REvent.chunk u tc.2)))) g).2
      = [(lastT c.1 rest + SILENCE_DURATION_MS,
          ((c :: rest).map Prod.snd).flatten)] := by
  unfold runSession runEvents
  simp only [List.map_cons, List.foldl_cons]
  rw [speakStep_initial]
  rw [firstData_mid g u t0 c.1 c.2 [] h0]
  rw [chunkLoop_mid g u rest [c.2] c.1 1 [] hg]
  simp only [List.singleton_append]
  rw [finish_mid g u c.2 (rest.map Prod.snd) (lastT c.1 rest) (1 + rest.length) []]
  simp

/-- Witness for C1: three chunks 290/200 ms apart flush once at 1500 ms
with the three chunks concatenated. -/
theorem utterance_coalescing_witness :
    (runSession (((0 : Nat), REvent.speaking "a") ::
        ((((10 : Nat), [1, 2]) :: [((300 : Nat), [3]), ((500 : Nat), [4, 5])]).map
          (fun tc => (tc.1, REvent.chunk "a" tc.2)))) "g").2
      = [(lastT 10 [((300 : Nat), [3]), ((500 : Nat), [4, 5])] + SILENCE_DURATION_MS,
          (((10, [1, 2]) :: [((300 : Nat), [3]), ((500 : Nat), [4, 5])]).map
            Prod.snd).flatten)] :=
  utterance_coalescing "g" "a" 0 (10, [1, 2]) [(300, [3]), (500, [4, 5])]
    (by decide) (by decide)

theorem timerInv_congr (s s' : RecorderState)
    (hl : s'.liveTimers = s.liveTimers) (hn : s'.nextTimerId = s.nextTimerId)
    (hobs : ∀ tm ∈ s.liveTimers,
      (alookup tm.userId s'.users).map UserState.silenceTimer
        = (alookup tm.userId s.users).map UserState.silenceTimer)
    (h : timerInv s) : timerInv s' := by
  obtain ⟨h1, h2, h3⟩ := h
  refine ⟨?_, ?_, ?_⟩
  · intro tm hm
    rw [hl] at hm
    rw [hn]
    exact h1 tm hm
  · rw [hl]
    exact h2
  · intro tm hm
    rw [hl] at hm
    rw [hobs tm hm]
    exact h3 tm hm

theorem silObs_aupdate (u v : String) (f : UserState → UserState)
    (hf : ∀ st, (f st).silenceTimer = st.silenceTimer)
    (l : List (String × UserState)) :
    (alookup v (aupdate u f l)).map UserState.silenceTimer
      = (alookup v l).map UserState.silenceTimer := by
  by_cases hv : v = u
  · subst hv
    rw [alookup_aupdate_self]
    cases alookup v l <;> simp [hf]
  · rw [alookup_aupdate_ne hv]

theorem timerInv_sublive (s : RecorderState) (p : Timer → Bool)
    (h : timerInv s) :
    timerInv { s with liveTimers := s.liveTimers.filter p } := by
  obtain ⟨h1, h2, h3⟩ := h
  refine ⟨?_, ?_, ?_⟩
  · intro tm hm
    exact h1 tm (List.mem_of_mem_filter hm)
  · exact List.Nodup.sublist (List.Sublist.map _ (List.filter_sublist _)) h2
  · intro tm hm
    exact h3 tm (List.mem_of_mem_filter hm)

theorem flush_liveTimers (u : String) (s : RecorderState) :
    (flushAndSend u s).state.liveTimers = s.liveTimers := by
  rcases flush_state_cases u s with h | h <;> rw [h]

theorem flush_nextTimerId (u : String) (s : RecorderState) :
    (flushAndSend u s).state.nextTimerId = s.nextTimerId := by
  rcases flush_state_cases u s with h | h <;> rw [h]

theorem flush_keys (u : String) (s : RecorderState) :
    (flushAndSend u s).state.users.map Prod.fst = s.users.map Prod.fst := by
  rcases flush_state_cases u s with h | h
  · rw [h]
  · rw [h]
    exact mapfst_aupdate u _ s.users

theorem flush_silObs (u v : String) (s : RecorderState) :
    (alookup v (flushAndSend u s).state.users).map UserState.silenceTimer
      = (alookup v s.users).map UserState.silenceTimer := by
  rcases flush_state_cases u s with h | h
  · rw [h]
  · rw [h]
    dsimp only
    exact silObs_aupdate u v (fun st => { st with audioChunks := [] })
      (fun st => rfl) s.users

theorem timerInv_flush (u : String) (s : RecorderState) (h : timerInv s) :
    timerInv (flushAndSend u s).state :=
  timerInv_congr s _ (flush_liveTimers u s) (flush_nextTimerId u s)
    (fun tm _ => flush_silObs u tm.userId s) h

theorem timerInv_fire (tm : Timer) (s : RecorderState) (h : timerInv s) :
    timerInv (fireTimer tm s).state := by
  by_cases hmem : tm ∈ s.liveTimers
  · rw [fireTimer, if_pos hmem]
    apply timerInv_flush
    have h2 : timerInv { s with users := aupdate tm.userId (fun st => { st with isSpeaking := false }) s.users } := by
      refine timerInv_congr s _ rfl rfl ?_ h
      intro tm' _
      dsimp only
      exact silObs_aupdate tm.userId tm'.userId
        (fun st => { st with isSpeaking := false }) (fun st => rfl) s.users
    exact timerInv_sublive _ _ h2
  · rw [fireTimer, if_neg hmem]
    exact h

theorem timerInv_reset (now : Nat) (u : String) (s : RecorderState)
    (h : timerInv s) : timerInv (resetSilenceTimer now u s) := by
  obtain ⟨h1, h2, h3⟩ := h
  cases halk : alookup u s.users with
  | none => simpa [resetSilenceTimer, halk] using ⟨h1, h2, h3⟩
  | some st =>
    cases hst : st.silenceTimer with
    | none =>
      simp only [resetSilenceTimer, halk, hst]
      refine ⟨?_, ?_, ?_⟩
      · intro tm hm
        rcases List.mem_append.mp hm with hm1 | hm2
        · exact Nat.lt_succ_of_lt (h1 tm hm1)
        · rw [List.mem_singleton.mp hm2]
          exact Nat.lt_succ_self _
      · rw [List.map_append, List.nodup_append]
        refine ⟨h2, by simp, ?_⟩
        intro x hx
        simp only [List.map_cons, List.map_nil, List.mem_singleton]
        rcases List.mem_map.mp hx with ⟨tm, hm, he⟩
        intro hxeq
        rw [hxeq] at he
        exact absurd (he ▸ h1 tm hm) (Nat.lt_irrefl _)
      · intro tm hm
        rcases List.mem_append.mp hm with hm1 | hm2
        · by_cases hv : tm.userId = u
          · exfalso
            have hsil := h3 tm hm1
            rw [hv, halk] at hsil
            simp at hsil
            rw [hst] at hsil
            exact Option.noConfusion hsil
          · rw [alookup_aupdate_ne hv]
            exact h3 tm hm1
        · rw [List.mem_singleton.mp hm2]
          rw [alookup_aupdate_self, halk]
          rfl
    | some hdl =>
      simp only [resetSilenceTimer, halk, hst, clearTimeout]
      refine ⟨?_, ?_, ?_⟩
      · intro tm hm
        rcases List.mem_append.mp hm with hm1 | hm2
        · exact Nat.lt_succ_of_lt (h1 tm (List.mem_of_mem_filter hm1))
        · rw [List.mem_singleton.mp hm2]
          exact Nat.lt_succ_self _
      · rw [List.map_append, List.nodup_append]
        refine ⟨List.Nodup.sublist (List.Sublist.map _ (List.filter_sublist _)) h2,
          by simp, ?_⟩
        intro x hx
        simp only [List.map_cons, List.map_nil, List.mem_singleton]
        rcases List.mem_map.mp hx with ⟨tm, hm, he⟩
        intro hxeq
        rw [hxeq] at he
        exact absurd (he ▸ h1 tm (List.mem_of_mem_filter hm)) (Nat.lt_irrefl _)
      · intro tm hm
        rcases List.mem_append.mp hm with hm1 | hm2
        · rcases List.mem_filter.mp hm1 with ⟨hmem, hids⟩
          by_cases hv : tm.userId = u
          · exfalso
            have hsil := h3 tm hmem
            rw [hv, halk] at hsil
            simp at hsil
            rw [hst] at hsil
            have hide : hdl = tm.id := by simpa using hsil
            rw [← hide] at hids
            simp at hids
          · rw [alookup_aupdate_ne hv]
            exact h3 tm hmem
        · rw [List.mem_singleton.mp hm2]
          rw [alookup_aupdate_self, halk]
          rfl

theorem timerInv_handle (t : Nat) (u : String) (s : RecorderState)
    (h : timerInv s) : timerInv (handleUserSpeaking t u s) := by
  by_cases hd : s.destroyed = true
  · simp only [handleUserSpeaking, if_pos hd]
    exact h
  · simp only [handleUserSpeaking, if_neg hd]
    cases halk : alookup u s.users with
    | some st =>
      apply timerInv_reset
      refine timerInv_congr s _ rfl rfl ?_ h
      intro tm _
      dsimp only
      exact silObs_aupdate u tm.userId
        (fun st => { st with isSpeaking := true }) (fun st => rfl) s.users
    | none =>
      apply timerInv_reset
      refine timerInv_congr s _ rfl rfl ?_ h
      intro tm hm
      obtain ⟨st', hst', _⟩ := Option.map_eq_some'.mp (h.2.2 tm hm)
      show (alookup tm.userId (s.users ++ [(u, freshUserState u)])).map
          UserState.silenceTimer = _
      rw [alookup_append_some hst', hst']

theorem timerInv_data (t : Nat) (u : String) (c : List Nat) (s : RecorderState)
    (h : timerInv s) : timerInv (decoderData t u c s) := by
  by_cases hd : s.destroyed = true
  · simp only [decoderData, if_pos hd]
    exact h
  · simp only [decoderData, if_neg hd]
    apply timerInv_reset
    refine timerInv_congr s _ rfl rfl ?_ h
    intro tm _
    dsimp only
    exact silObs_aupdate u tm.userId
      (fun st => { st with audioChunks := st.audioChunks ++ [c], isSpeaking := true })
      (fun st => rfl) s.users

theorem owned_sublive (s : RecorderState) (p : Timer → Bool)
    (h : ownedTimers s) :
    ownedTimers { s with liveTimers := s.liveTimers.filter p } :=
  fun tm hm => h tm (List.mem_of_mem_filter hm)

theorem owned_flush (u : String) (s : RecorderState) (h : ownedTimers s) :
    ownedTimers (flushAndSend u s).state := by
  intro tm hm
  rw [flush_liveTimers] at hm
  rw [flush_silObs]
  exact h tm hm

theorem destroyUser_sub (u : String) (s : RecorderState) (h : ownedTimers s) :
    ownedTimers (destroyUser u s).state ∧
    (∀ tm ∈ (destroyUser u s).state.liveTimers, tm ∈ s.liveTimers ∧ tm.userId ≠ u) := by
  cases halk : alookup u s.users with
  | none =>
    simp only [destroyUser, halk]
    refine ⟨h, ?_⟩
    intro tm hm
    refine ⟨hm, ?_⟩
    intro hv
    have hsil := h tm hm
    rw [hv, halk] at hsil
    exact Option.noConfusion hsil
  | some st =>
    cases hst : st.silenceTimer with
    | none =>
      simp only [destroyUser, halk, hst]
      constructor
      · intro tm hm
        dsimp only at hm ⊢
        rw [flush_liveTimers] at hm
        rw [show ({ (flushAndSend u s).state with closedStreams :=
            (flushAndSend u s).state.closedStreams ++ [u] } : RecorderState).users
          = (flushAndSend u s).state.users from rfl]
        rw [flush_silObs]
        exact h tm hm
      · intro tm hm
        rw [flush_liveTimers] at hm
        refine ⟨hm, ?_⟩
        intro hv
        have hsil := h tm hm
        rw [hv, halk] at hsil
        simp at hsil
        rw [hst] at hsil
        exact Option.noConfusion hsil
    | some hdl =>
      simp only [destroyUser, halk, hst]
      constructor
      · intro tm hm
        dsimp only at hm ⊢
        rw [flush_liveTimers] at hm
        rw [show ({ (flushAndSend u (clearTimeout hdl s)).state with closedStreams :=
            (flushAndSend u (clearTimeout hdl s)).state.closedStreams ++ [u] }
              : RecorderState).users
          = (flushAndSend u (clearTimeout hdl s)).state.users from rfl]
        rw [flush_silObs]
        show (alookup tm.userId s.users).map UserState.silenceTimer = _
        exact h tm (List.mem_of_mem_filter hm)
      · intro tm hm
        rw [flush_liveTimers] at hm
        rcases List.mem_filter.mp hm with ⟨hmem, hids⟩
        refine ⟨hmem, ?_⟩
        intro hv
        have hsil := h tm hmem
        rw [hv, halk] at hsil
        simp at hsil
        rw [hst] at hsil
        have hide : hdl = tm.id := by simpa using hsil
        rw [← hide] at hids
        simp at hids

theorem destroyLoop_clears (ks : List String) :
    ∀ s : RecorderState, ownedTimers s →
      (∀ tm ∈ s.liveTimers, tm.userId ∈ ks) →
      (destroyLoop ks s).state.liveTimers = [] := by
  induction ks with
  | nil =>
    intro s _ hall
    simp only [destroyLoop]
    exact List.eq_nil_iff_forall_not_mem.mpr fun tm hm => by simpa using hall tm hm
  | cons u ks ih =>
    intro s hown hall
    simp only [destroyLoop]
    apply ih
    · exact (destroyUser_sub u s hown).1
    · intro tm hm
      obtain ⟨hmem, hne⟩ := (destroyUser_sub u s hown).2 tm hm
      rcases List.mem_cons.mp (hall tm hmem) with h1 | h2
      · exact absurd h1 hne
      · exact h2

theorem destroy_live_nil (s : RecorderState) (h : ownedTimers s) :
    (destroy s).state.liveTimers = [] := by
  have hd0 : ownedTimers { s with destroyed := true } := h
  have hall : ∀ tm ∈ ({ s with destroyed := true } : RecorderState).liveTimers,
      tm.userId ∈ s.users.map Prod.fst := by
    intro tm hm
    obtain ⟨st', hst', _⟩ := Option.map_eq_some'.mp (h tm hm)
    exact alookup_mem_keys hst'
  have hres := destroyLoop_clears (s.users.map Prod.fst) _ hd0 hall
  simpa [destroy] using hres

theorem timerInv_destroy (s : RecorderState) (h : timerInv s) :
    timerInv (destroy s).state := by
  have hl := destroy_live_nil s h.2.2
  refine ⟨?_, ?_, ?_⟩
  · intro tm hm
    rw [hl] at hm
    cases hm
  · rw [hl]
    exact List.nodup_nil
  · intro tm hm
    rw [hl] at hm
    cases hm

theorem stepTimed_close (p : RecorderState × List (Nat × List Nat))
    (t : Nat) (u : String) :
    stepTimed p (t, REvent.close u)
      = ((flushAndSend u (fireDue t p.1).1).state,
          (p.2 ++ (fireDue t p.1).2)
            ++ (optList (flushAndSend u (fireDue t p.1).1).drained).map
              (fun pcm => (t, pcm))) := rfl

theorem stepTimed_teardown (p : RecorderState × List (Nat × List Nat)) (t : Nat) :
    stepTimed p (t, REvent.teardown)
      = ((destroy (fireDue t p.1).1).state,
          (p.2 ++ (fireDue t p.1).2)
            ++ (destroy (fireDue t p.1).1).drains.map (fun pcm => (t, pcm))) := rfl

theorem timerInv_fireFold (L : List Timer) :
    ∀ p : RecorderState × List (Nat × List Nat), timerInv p.1 →
      timerInv ((L.foldl (fun acc tm =>
          let out := fireTimer tm acc.1
          (out.state, acc.2 ++ (optList out.drained).map
            (fun pcm => (tm.deadline, pcm)))) p).1) := by
  induction L with
  | nil => intro p h; exact h
  | cons tm L ih =>
    intro p h
    simp only [List.foldl_cons]
    exact ih _ (timerInv_fire tm p.1 h)

theorem timerInv_fireDue (t : Nat) (s : RecorderState) (h : timerInv s) :
    timerInv (fireDue t s).1 :=
  timerInv_fireFold _ (s, []) h

theorem timerInv_step (p : RecorderState × List (Nat × List Nat))
    (ev : Nat × REvent) (h : timerInv p.1) : timerInv (stepTimed p ev).1 := by
  rcases ev with ⟨t, e⟩
  have hfd := timerInv_fireDue t p.1 h
  cases e with
  | speaking u =>
    rw [stepTimed_speaking]
    exact timerInv_handle t u _ hfd
  | chunk u c =>
    rw [stepTimed_chunk]
    exact timerInv_data t u c _ hfd
  | close u =>
    rw [stepTimed_close]
    exact timerInv_flush u _ hfd
  | teardown =>
    rw [stepTimed_teardown]
    exact timerInv_destroy _ hfd

theorem timerInv_runFold (evs : List (Nat × REvent)) :
    ∀ p : RecorderState × List (Nat × List Nat), timerInv p.1 →
      timerInv (evs.foldl stepTimed p).1 := by
  induction evs with
  | nil => intro p h; exact h
  | cons ev evs ih =>
    intro p h
    simp only [List.foldl_cons]
    exact ih _ (timerInv_step p ev h)

theorem timerInv_initial (g : String) : timerInv (initialRecorder g) := by
  refine ⟨?_, ?_, ?_⟩ <;> simp [initialRecorder, ownedTimers]

theorem filter_user_le_one (u : String) (k : Nat) (L : List Timer)
    (hnd : (L.map Timer.id).Nodup) (hk : ∀ tm ∈ L, tm.userId = u → tm.id = k) :
    (L.filter (fun tm => tm.userId == u)).length ≤ 1 := by
  induction L with
  | nil => simp
  | cons tm L ih =>
    rw [List.map_cons, List.nodup_cons] at hnd
    by_cases hu : tm.userId = u
    · have hnil : L.filter (fun tm => tm.userId == u) = [] := by
        rw [List.filter_eq_nil_iff]
        intro tm' hm' hb
        have hu' : tm'.userId = u := by simpa using hb
        have h1 : tm'.id = k := hk tm' (List.mem_cons_of_mem _ hm') hu'
        have h2 : tm.id = k := hk tm (List.mem_cons_self _ _) hu
        have he : tm.id = tm'.id := by rw [h1, h2]
        exact hnd.1 (he ▸ List.mem_map_of_mem Timer.id hm')
      rw [List.filter_cons_of_pos (by simpa using hu), hnil]
      simp
    · rw [List.filter_cons_of_neg (by simpa using hu)]
      exact ih hnd.2 fun tm' hm' hu' => hk tm' (List.mem_cons_of_mem _ hm') hu'

theorem countLive_le_one (s : RecorderState) (h : timerInv s) (u : String) :
    countLive u s ≤ 1 := by
  obtain ⟨h1, h2, h3⟩ := h
  cases halk : alookup u s.users with
  | none =>
    have hnil : s.liveTimers.filter (fun tm => tm.userId == u) = [] := by
      rw [List.filter_eq_nil_iff]
      intro tm hm hb
      have hu : tm.userId = u := by simpa using hb
      have hsil := h3 tm hm
      rw [hu, halk] at hsil
      exact Option.noConfusion hsil
    simp [countLive, hnil]
  | some st =>
    cases hst : st.silenceTimer with
    | none =>
      have hnil : s.liveTimers.filter (fun tm => tm.userId == u) = [] := by
        rw [List.filter_eq_nil_iff]
        intro tm hm hb
        have hu : tm.userId = u := by simpa using hb
        have hsil := h3 tm hm
        rw [hu, halk] at hsil
        simp at hsil
        rw [hst] at hsil
        exact Option.noConfusion hsil
      simp [countLive, hnil]
    | some k =>
      apply filter_user_le_one u k _ h2
      intro tm hm hu
      have hsil := h3 tm hm
      rw [hu, halk] at hsil
      simp at hsil
      rw [hst] at hsil
      simpa using hsil.symm

/-- Claim C7: for every tracked speaker, at every instant at most one
silence-expiry timer is live — chunk arrivals and speaker-started signals
always cancel the stored handle before installing a fresh one, so arbitrary
event sequences never accumulate timers. -/
theorem single_live_timer (g u : String) (evs : List (Nat × REvent)) :
    countLive u (runEvents evs (initialRecorder g)).1 ≤ 1 :=
  countLive_le_one _
    (timerInv_runFold evs (initialRecorder g, []) (timerInv_initial g)) u

theorem flush_closed (u : String) (s : RecorderState) :
    (flushAndSend u s).state.closedStreams = s.closedStreams := by
  rcases flush_state_cases u s with h | h <;> rw [h]

theorem flush_subs (u : String) (s : RecorderState) :
    (flushAndSend u s).state.subscriptions = s.subscriptions := by
  rcases flush_state_cases u s with h | h <;> rw [h]

theorem fire_keys (tm : Timer) (s : RecorderState) :
    (fireTimer tm s).state.users.map Prod.fst = s.users.map Prod.fst := by
  by_cases hmem : tm ∈ s.liveTimers
  · rw [fireTimer, if_pos hmem, flush_keys]
    exact mapfst_aupdate _ _ _
  · rw [fireTimer, if_neg hmem]

theorem fire_closed (tm : Timer) (s : RecorderState) :
    (fireTimer tm s).state.closedStreams = s.closedStreams := by
  by_cases hmem : tm ∈ s.liveTimers
  · rw [fireTimer, if_pos hmem, flush_closed]
    rfl
  · rw [fireTimer, if_neg hmem]

theorem fire_subs (tm : Timer) (s : RecorderState) :
    (fireTimer tm s).state.subscriptions = s.subscriptions := by
  by_cases hmem : tm ∈ s.liveTimers
  · rw [fireTimer, if_pos hmem, flush_subs]
    rfl
  · rw [fireTimer, if_neg hmem]

theorem destroyUser_keys (u : String) (s : RecorderState) :
    (destroyUser u s).state.users.map Prod.fst = s.users.map Prod.fst := by
  cases halk : alookup u s.users with
  | none => simp only [destroyUser, halk]
  | some st =>
    cases hst : st.silenceTimer <;>
      simp only [destroyUser, halk, hst] <;>
      exact flush_keys _ _

theorem destroyUser_closed_mono (u : String) (s : RecorderState) :
    ∀ x ∈ s.closedStreams, x ∈ (destroyUser u s).state.closedStreams := by
  intro x hx
  cases halk : alookup u s.users with
  | none => simpa only [destroyUser, halk] using hx
  | some st =>
    cases hst : st.silenceTimer <;>
      simp only [destroyUser, halk, hst] <;>
      [rw [List.mem_append, flush_closed]; rw [List.mem_append, flush_closed]] <;>
      exact Or.inl hx

theorem destroyUser_closed_self (u : String) (s : RecorderState) {st : UserState}
    (halk : alookup u s.users = some st) :
    u ∈ (destroyUser u s).state.closedStreams := by
  cases hst : st.silenceTimer <;>
    simp only [destroyUser, halk, hst] <;>
    simp

theorem destroyLoop_closed_mono (ks : List String) :
    ∀ (s : RecorderState) (x : String), x ∈ s.closedStreams →
      x ∈ (destroyLoop ks s).state.closedStreams := by
  induction ks with
  | nil => intro s x hx; simpa [destroyLoop] using hx
  | cons u ks ih =>
    intro s x hx
    simp only [destroyLoop]
    exact ih _ x (destroyUser_closed_mono u s x hx)

theorem destroyLoop_closed (ks : List String) :
    ∀ s : RecorderState, (∀ k ∈ ks, k ∈ s.users.map Prod.fst) →
      ∀ k ∈ ks, k ∈ (destroyLoop ks s).state.closedStreams := by
  induction ks with
  | nil => intro s _ k hk; cases hk
  | cons u ks ih =>
    intro s hkeys k hk
    simp only [destroyLoop]
    rcases List.mem_cons.mp hk with h1 | h2
    · subst h1
      obtain ⟨st, halk⟩ := mem_keys_alookup (hkeys k (List.mem_cons_self _ _))
      exact destroyLoop_closed_mono ks _ k (destroyUser_closed_self k s halk)
    · apply ih
      · intro k' hk'
        rw [destroyUser_keys]
        exact hkeys k' (List.mem_cons_of_mem _ hk')
      · exact h2

theorem destroy_closes_streams (s : RecorderState) :
    ∀ k ∈ s.users.map Prod.fst, k ∈ (destroy s).state.closedStreams := by
  intro k hk
  have hres := destroyLoop_closed (s.users.map Prod.fst)
    ({ s with destroyed := true }) (fun k' hk' => hk') k hk
  simpa [destroy] using hres

/-- Counterexample to claim C5, as stated: after the silence-timeout flush
of a concrete session (one chunk at 100 ms, quiet period elapsing at
1100 ms), the flush has occurred — the drain log shows it — yet the
speaker's registry entry is still present and no stream handle has been
closed, so the session was not destroyed. -/
theorem flush_destroys_session_counterexample :
    (runSession [(0, REvent.speaking "a"), (100, REvent.chunk "a" [1, 2, 3])] "g").2
        = [(1100, [1, 2, 3])] ∧
      alookup "a" (runSession [(0, REvent.speaking "a"),
          (100, REvent.chunk "a" [1, 2, 3])] "g").1.users
        = some ⟨"a", [], false, some 1⟩ ∧
      (runSession [(0, REvent.speaking "a"),
        (100, REvent.chunk "a" [1, 2, 3])] "g").1.closedStreams = [] := by
  decide

/-- Claim C5 amended: a flush triggered by silence timeout (`fireTimer`) or
stream closure (`flushAndSend`) only drains the buffer — the registry
entry, the subscription log, and the stream handles all survive, ready for
the speaker's next utterance.  Full destruction happens only in
`destroy()`: the users map is emptied, every live timer is cancelled, and
every tracked user's streams are closed. -/
theorem flush_keeps_session_amended (s : RecorderState) (tm : Timer)
    (u : String) (hinv : timerInv s) :
    ((fireTimer tm s).state.users.map Prod.fst = s.users.map Prod.fst ∧
      (fireTimer tm s).state.closedStreams = s.closedStreams ∧
      (fireTimer tm s).state.subscriptions = s.subscriptions) ∧
    ((flushAndSend u s).state.users.map Prod.fst = s.users.map Prod.fst ∧
      (flushAndSend u s).state.closedStreams = s.closedStreams) ∧
    ((destroy s).state.users = [] ∧ (destroy s).state.liveTimers = [] ∧
      ∀ k ∈ s.users.map Prod.fst, k ∈ (destroy s).state.closedStreams) :=
  ⟨⟨fire_keys tm s, fire_closed tm s, fire_subs tm s⟩,
    ⟨flush_keys u s, flush_closed u s⟩,
    ⟨rfl, destroy_live_nil s hinv.2.2, destroy_closes_streams s⟩⟩

/-- Witness for the amended C5 at a concrete mid-utterance state. -/
theorem flush_keeps_session_witness :
    (((fireTimer ⟨0, "a", 1000⟩ (midRec "g" "a" [[1]] 0 0)).state.users.map Prod.fst
        = (midRec "g" "a" [[1]] 0 0).users.map Prod.fst ∧
      (fireTimer ⟨0, "a", 1000⟩ (midRec "g" "a" [[1]] 0 0)).state.closedStreams
        = (midRec "g" "a" [[1]] 0 0).closedStreams ∧
      (fireTimer ⟨0, "a", 1000⟩ (midRec "g" "a" [[1]] 0 0)).state.subscriptions
        = (midRec "g" "a" [[1]] 0 0).subscriptions) ∧
    ((flushAndSend "a" (midRec "g" "a" [[1]] 0 0)).state.users.map Prod.fst
        = (midRec "g" "a" [[1]] 0 0).users.map Prod.fst ∧
      (flushAndSend "a" (midRec "g" "a" [[1]] 0 0)).state.closedStreams
        = (midRec "g" "a" [[1]] 0 0).closedStreams) ∧
    ((destroy (midRec "g" "a" [[1]] 0 0)).state.users = [] ∧
      (destroy (midRec "g" "a" [[1]] 0 0)).state.liveTimers = [] ∧
      ∀ k ∈ (midRec "g" "a" [[1]] 0 0).users.map Prod.fst,
        k ∈ (destroy (midRec "g" "a" [[1]] 0 0)).state.closedStreams)) :=
  flush_keeps_session_amended (midRec "g" "a" [[1]] 0 0) ⟨0, "a", 1000⟩ "a" (by decide)

theorem joinTeardown_eq (m : ManagerState) (g : String) (e : ConnEntry)
    (r : RecorderState) (hc : alookup g m.connections = some e)
    (hr : alookup g m.recorders = some r) (ha : e.handlerAttached = true) :
    joinTeardown g m =
      (⟨aremove g m.connections, aremove g m.recorders, m.nextConnId⟩,
        [MAction.destroyConn e.id, MAction.destroyRecorder g, MAction.deleteRecorder g],
        [(destroy r).state]) := by
  simp only [joinTeardown, hc, connDestroy, ha, if_true]
  rw [show ({ m with connections := aremove g m.connections } : ManagerState).recorders
    = m.recorders from rfl]
  rw [hr]
  simp only [alookup_aremove_self]

/-- Claim C9: a join for a group with an existing entry performs the full
teardown — connection destroyed, recorder destroyed (all of its timers
cancelled, its users cleared) and the registry entry removed, each exactly
once — strictly before the new connection is created and the new recorder
registered, and no intermediate state holds two entries for the group. -/
theorem join_replaces_entry (m : ManagerState) (g : String) (e : ConnEntry)
    (r : RecorderState) (hc : alookup g m.connections = some e)
    (hr : alookup g m.recorders = some r) (ha : e.handlerAttached = true)
    (hinv : timerInv r) :
    (joinVoiceChannel true g m).trace
        = [MAction.destroyConn e.id, MAction.destroyRecorder g,
            MAction.deleteRecorder g, MAction.createConn m.nextConnId,
            MAction.setRecorder g] ∧
      countKey g (joinTeardown g m).1.connections = 0 ∧
      countKey g (joinTeardown g m).1.recorders = 0 ∧
      countKey g (joinVoiceChannel true g m).state.connections = 1 ∧
      countKey g (joinVoiceChannel true g m).state.recorders = 1 ∧
      (joinVoiceChannel true g m).retired = [(destroy r).state] ∧
      (destroy r).state.users = [] ∧ (destroy r).state.liveTimers = [] := by
  have htd := joinTeardown_eq m g e r hc hr ha
  refine ⟨?_, ?_, ?_, ?_, ?_, ?_, rfl, destroy_live_nil r hinv.2.2⟩
  · simp [joinVoiceChannel, htd]
  · rw [htd]
    exact countKey_aremove_self g m.connections
  · rw [htd]
    exact countKey_aremove_self g m.recorders
  · simp [joinVoiceChannel, htd, countKey_aupdate, countKey_append,
      countKey_aremove_self, countKey_singleton_self]
  · simp [joinVoiceChannel, htd, countKey_append, countKey_aremove_self,
      countKey_singleton_self]
  · simp [joinVoiceChannel, htd]

/-- Witness for C9: re-join of a concretely occupied guild. -/
theorem join_replaces_entry_witness :
    (joinVoiceChannel true "g" ⟨[("g", ⟨5, true⟩)], [("g", midRec "g" "a" [[1]] 0 0)], 6⟩).trace
        = [MAction.destroyConn 5, MAction.destroyRecorder "g",
            MAction.deleteRecorder "g", MAction.createConn 6,
            MAction.setRecorder "g"] ∧
      countKey "g" (joinTeardown "g"
          ⟨[("g", ⟨5, true⟩)], [("g", midRec "g" "a" [[1]] 0 0)], 6⟩).1.connections = 0 ∧
      countKey "g" (joinTeardown "g"
          ⟨[("g", ⟨5, true⟩)], [("g", midRec "g" "a" [[1]] 0 0)], 6⟩).1.recorders = 0 ∧
      countKey "g" (joinVoiceChannel true "g"
          ⟨[("g", ⟨5, true⟩)], [("g", midRec "g" "a" [[1]] 0 0)], 6⟩).state.connections = 1 ∧
      countKey "g" (joinVoiceChannel true "g"
          ⟨[("g", ⟨5, true⟩)], [("g", midRec "g" "a" [[1]] 0 0)], 6⟩).state.recorders = 1 ∧
      (joinVoiceChannel true "g"
          ⟨[("g", ⟨5, true⟩)], [("g", midRec "g" "a" [[1]] 0 0)], 6⟩).retired
        = [(destroy (midRec "g" "a" [[1]] 0 0)).state] ∧
      (destroy (midRec "g" "a" [[1]] 0 0)).state.users = [] ∧
      (destroy (midRec "g" "a" [[1]] 0 0)).state.liveTimers = [] :=
  join_replaces_entry ⟨[("g", ⟨5, true⟩)], [("g", midRec "g" "a" [[1]] 0 0)], 6⟩
    "g" ⟨5, true⟩ (midRec "g" "a" [[1]] 0 0) (by decide) (by decide) (by decide)
    (by decide)

end DiscordBot
